import Mathlib

/-!
Verification model of the `ask` CLI's streaming LLM client and session
controller.

The definitions below are a shallow embedding of the Go sources:

* `llm` namespace — `internal/llm` (the OpenRouter client):
  the event types `StreamChunkMsg` / `StreamEndMsg` / `StreamErrorMsg` are
  modelled by `TeaMsg`, and `OpenRouterClient.StreamGenerate`'s goroutine body
  is modelled by `streamGenerate`.  JSON decoding of a stream chunk
  (`encoding/json`'s `Unmarshal` into `OpenRouterStreamChunk`) is an external
  library call and is abstracted as a `decode` oracle parameter; everything
  else (SSE line handling, the decode-error tolerance flag, the content
  accumulator, the order of channel sends and the early `return`s) is
  translated directly from the source.
* `ui` namespace — `internal/ui/chat.go` (the chat widget): the fields of
  `Chat` that the session logic reads or writes (`historyBuf`,
  `assistantResponse`, `sending`, the textarea value) and its `Update` /
  `SetSending` behaviour.  The lipgloss style renderers are abstracted as
  string-transformer parameters.
* `app` namespace — the application controller (`App.Update`): conversation
  history, the single-flight `streamChan` guard, and the handlers for
  `SendPromptMsg`, `StreamChunkMsg`, `StreamEndMsg`, `StreamErrorMsg`.

Events sent on the stream channel are collected into a list, in send order;
the producer's deferred `close(msgChan)` happens after the last element of
that list by construction.
-/

namespace Str

/-- Model of Go `strings.HasPrefix` on Lean strings (char-for-char). -/
def hasPfx (s p : String) : Bool := p.data.isPrefixOf s.data

/-- Model of Go `strings.TrimPrefix`. -/
def trimPfx (s p : String) : String :=
  if hasPfx s p then ⟨s.data.drop p.data.length⟩ else s

/-- Model of Go `strings.HasSuffix`. -/
def hasSfx (s p : String) : Bool := p.data.isSuffixOf s.data

/-- Model of Go `strings.TrimSuffix`. -/
def trimSfx (s p : String) : String :=
  if hasSfx s p then ⟨s.data.take (s.data.length - p.data.length)⟩ else s

/-- Model of Go `strings.TrimSpace` (whitespace trim at both ends). -/
def trimSpace (s : String) : String :=
  ⟨(s.data.dropWhile Char.isWhitespace).reverse.dropWhile Char.isWhitespace |>.reverse⟩

end Str

namespace llm

/-- `llm.Message`: one conversation entry, role `"user"` or `"assistant"`. -/
structure Message where
  role : String
  content : String
deriving DecidableEq, Repr

/-- Delta carried by one streaming choice (`OpenRouterStreamDelta`). -/
structure OpenRouterStreamDelta where
  content : String
deriving DecidableEq, Repr

/-- One choice of a streaming chunk (`OpenRouterStreamChoice`). -/
structure OpenRouterStreamChoice where
  delta : OpenRouterStreamDelta
  finishReason : Option String
deriving DecidableEq, Repr

/-- Decoded SSE data payload (`OpenRouterStreamChunk`); `error` holds the
`message` field of a non-null embedded API error. -/
structure OpenRouterStreamChunk where
  choices : List OpenRouterStreamChoice
  error : Option String
deriving DecidableEq, Repr

/-- The distinct error construction sites of `StreamGenerate`, by kind. -/
inductive StreamErr where
  | marshal
  | reqCreate
  | httpDo
  | status (code : Nat) (body : String)
  | decode (payload : String)
  | api (msg : String)
  | read
deriving DecidableEq, Repr

/-- The messages `StreamGenerate` sends on `msgChan`
(`StreamChunkMsg` / `StreamEndMsg` / `StreamErrorMsg`). -/
inductive TeaMsg where
  | streamChunk (content : String)
  | streamEnd (fullResponse : String)
  | streamError (err : StreamErr)
deriving DecidableEq, Repr

/-- Whether an event is a `StreamChunkMsg`. -/
def TeaMsg.isChunk : TeaMsg → Bool
  | .streamChunk _ => true
  | _ => false

/-- Whether an event is a `StreamEndMsg`. -/
def TeaMsg.isEnd : TeaMsg → Bool
  | .streamEnd _ => true
  | _ => false

/-- Whether an event is a `StreamErrorMsg` of decode kind. -/
def TeaMsg.isDecodeErr : TeaMsg → Bool
  | .streamError (.decode _) => true
  | _ => false

/-- A terminal event: `StreamEndMsg` or `StreamErrorMsg`. -/
def TeaMsg.isTerminal : TeaMsg → Bool
  | .streamChunk _ => false
  | _ => true

/-- How the `for scanner.Scan()` loop was left. -/
inductive LoopExit where
  | ranOut   -- scanner.Scan() returned false: no more lines
  | broke    -- `break` on a `[DONE]` payload
  | returned -- `return` after sending a terminal error
deriving DecidableEq, Repr

/-- The SSE `data: ` marker (`CHUNK_PREFIX` in the source). -/
def CHUNK_PREFIX : String := "data: "

/-- The body of `StreamGenerate`'s scan loop, translated line by line from
the source.  Arguments: the remaining scanner lines, the running
`fullResponseContent` accumulator, and the `responseStreamingErrorSeen`
flag.  Returns the events sent inside the loop, the final accumulator, and
how the loop exited. -/
def processLines (decode : String → Option OpenRouterStreamChunk) :
    List String → String → Bool → List TeaMsg × String × LoopExit
  | [], acc, _ => ([], acc, .ranOut)
  | line :: rest, acc, errSeen =>
    if line = "" || Str.hasPfx line ":" then
      processLines decode rest acc errSeen
    else if Str.hasPfx line CHUNK_PREFIX then
      let jsonDataStr := Str.trimPfx line CHUNK_PREFIX
      if jsonDataStr = "[DONE]" then
        ([], acc, .broke)
      else
        match decode jsonDataStr with
        | none =>
          if errSeen then
            ([.streamError (.decode jsonDataStr)], acc, .returned)
          else
            processLines decode rest acc true
        | some chunk =>
          match chunk.error with
          | some emsg => ([.streamError (.api emsg)], acc, .returned)
          | none =>
            match chunk.choices with
            | [] => processLines decode rest acc errSeen
            | choice :: _ =>
              let content := choice.delta.content
              if content = "" then
                -- FinishReason, if present, is only logged
                processLines decode rest acc errSeen
              else
                let r := processLines decode rest (acc ++ content) errSeen
                (.streamChunk content :: r.1, r.2)
    else
      processLines decode rest acc errSeen

/-- The HTTP exchange observed by `StreamGenerate` when `httpClient.Do`
succeeds: status code, the body split into scanner lines, whether
`scanner.Err()` reports a read failure after those lines, and the raw body
used in the non-200 error message. -/
structure HttpResp where
  status : Nat
  bodyLines : List String
  scanErr : Bool
  rawBody : String
deriving DecidableEq, Repr

/-- One invocation's environment: whether `json.Marshal` succeeds, whether
`http.NewRequestWithContext` succeeds, and the outcome of `httpClient.Do`
(`none` models a transport-level failure). -/
structure StreamInput where
  marshalOk : Bool
  reqOk : Bool
  httpResp : Option HttpResp
deriving DecidableEq, Repr

/-- Result of one `StreamGenerate` run: the events sent on `msgChan` in
order (the deferred `close` follows the last one), and whether the
goroutine panicked (dereferencing the nil request after a request-creation
failure, since that branch sends its error without returning). -/
structure StreamOutcome where
  events : List TeaMsg
  panicked : Bool
deriving DecidableEq, Repr

/-- The scan loop together with the post-loop terminal logic of
`StreamGenerate`, for a 200-status body: run the loop on the body's lines;
after an early `return` nothing more is sent; after `break` (`[DONE]`) or
line exhaustion, a read failure reported by `scanner.Err()` sends the read
error, otherwise the `StreamEndMsg` is assembled from the accumulator. -/
def scanBody (decode : String → Option OpenRouterStreamChunk)
    (r : HttpResp) : List TeaMsg :=
  let res := processLines decode r.bodyLines "" false
  match res.2.2 with
  | .returned => res.1
  | .broke => res.1 ++ [.streamEnd res.2.1]
  | .ranOut =>
    if r.scanErr then
      res.1 ++ [.streamError .read]
    else
      res.1 ++ [.streamEnd res.2.1]

/-- `OpenRouterClient.StreamGenerate`'s goroutine body.  Note that the
marshal-failure branch sends `StreamErrorMsg` without `return`, so
execution falls through to the HTTP request; the request-creation-failure
branch likewise falls through, into `req.Header.Set` on a nil `req`. -/
def streamGenerate (decode : String → Option OpenRouterStreamChunk)
    (inp : StreamInput) : StreamOutcome :=
  -- events sent before the HTTP exchange (missing `return` after marshal error)
  let pre : List TeaMsg := if inp.marshalOk then [] else [.streamError .marshal]
  if inp.reqOk = false then
    -- error sent, no return; req is nil, req.Header.Set panics
    ⟨pre ++ [.streamError .reqCreate], true⟩
  else
    match inp.httpResp with
    | none => ⟨pre ++ [.streamError .httpDo], false⟩
    | some r =>
      if r.status ≠ 200 then
        ⟨pre ++ [.streamError (.status r.status r.rawBody)], false⟩
      else
        ⟨pre ++ scanBody decode r, false⟩

end llm

namespace ui

/-- The session-relevant state of the chat widget (`ui.Chat`): the rendered
history text (`historyBuf`), the per-response accumulation buffer
(`assistantResponse`), the `sending` flag, the textarea's current value and
its placeholder text.  The viewport/textarea widget internals and lipgloss
styles are not modelled; the style `Render` calls are abstracted as
string-transformer parameters of the operations. -/
structure Chat where
  historyBuf : String
  assistantResponse : String
  sending : Bool
  inputValue : String
  placeholder : String
deriving DecidableEq, Repr

/-- Commands a `Chat.Update` step can return; `emitSendPrompt p` is the
closure `func() tea.Msg { return SendPromptMsg{Prompt: p} }`. -/
inductive ChatCmd where
  | emitSendPrompt (prompt : String)
deriving DecidableEq, Repr

/-- Messages handled by `Chat.Update`.  A key press carries whether it
matches `sendKey` and, abstractly, the edit the textarea widget would apply
to its value if the key is delegated to it (`edit`). -/
inductive ChatMsg where
  | key (isSendKey : Bool) (edit : String → String)
  | streamChunk (content : String)
  | streamEnd (fullResponse : String)
  | streamError (err : String)
  | llmReply (content : String)

/-- `Chat.SetSending`, including the `historyBuf` bookkeeping: on `true` it
prints the styled `"Assistant: "` label and resets `assistantResponse`; on
`false` it removes a dangling label when no content was streamed.
`aR` abstracts `c.assistantStyle.Render`. -/
def Chat.SetSending (aR : String → String) (c : Chat) (b : Bool) : Chat :=
  if b then
    { c with
      sending := true
      placeholder := "Assistant is thinking..."
      historyBuf := c.historyBuf ++ aR "Assistant" ++ ": "
      assistantResponse := "" }
  else
    let lbl := aR "Assistant" ++ ": "
    if Str.hasSfx c.historyBuf lbl && c.assistantResponse = "" then
      { c with
        sending := false
        placeholder := "Write a message…"
        historyBuf := Str.trimSfx c.historyBuf lbl }
    else
      { c with
        sending := false
        placeholder := "Write a message…" }

/-- `Chat.Update`.  `uR` / `aR` abstract the lipgloss user/assistant style
renderers.  Viewport `SetContent`/`GotoBottom` calls only mirror
`historyBuf` into the scroll widget and are not separate state here;
widget-internal commands (cursor blink) are not modelled. -/
def Chat.Update (uR aR : String → String) (c : Chat) :
    ChatMsg → Chat × List ChatCmd
  | .key isSendKey edit =>
    if isSendKey && !c.sending then
      let prompt := Str.trimSpace c.inputValue
      if prompt = "" then
        (c, [])
      else
        let userLabel := uR "You"
        let fullMessageLine := userLabel ++ ": " ++ prompt
        ({ c with
            historyBuf := c.historyBuf ++ fullMessageLine ++ "\n\n"
            inputValue := "" },
         [.emitSendPrompt prompt])
    else
      -- key delegated to the textarea/viewport widgets
      ({ c with inputValue := edit c.inputValue }, [])
  | .streamChunk content =>
    ({ c with
        assistantResponse := c.assistantResponse ++ content
        historyBuf := c.historyBuf ++ content }, [])
  | .streamEnd _ =>
    let buf := if c.assistantResponse.length > 0
      then c.historyBuf ++ "\n\n" else c.historyBuf
    ({ c with historyBuf := buf, assistantResponse := "" }, [])
  | .streamError err =>
    ({ c with historyBuf := c.historyBuf ++ err ++ "\n\n" }, [])
  | .llmReply content =>
    let lbl := aR "Assistant" ++ ": "
    let buf := if Str.hasSfx c.historyBuf lbl
      then c.historyBuf ++ content ++ "\n\n"
      else c.historyBuf ++ lbl ++ content ++ "\n\n"
    ({ c with historyBuf := buf, assistantResponse := "" }, [])

end ui

namespace app

/-- The application's active view. -/
inductive ViewState where
  | chatView
  | modelPickerView
deriving DecidableEq, Repr

/-- The session-relevant state of `App`: selected model, the conversation
history (controller-owned), whether a stream channel is live
(`streamChan ≠ nil`), the chat widget, the last error text and the active
view. -/
structure App where
  selectedModel : String
  conversationHistory : List llm.Message
  streamChanActive : Bool
  chat : ui.Chat
  lastError : Option String
  activeView : ViewState
deriving DecidableEq, Repr

/-- Effects `App.Update` issues: starting a producer
(`go a.llmClient.StreamGenerate(ctx, model, historyCopy, a.streamChan)` —
`startStream` records the model and the history copy handed to the
producer) and re-arming the channel listener (`listenToStream`). -/
inductive AppCmd where
  | startStream (model : String) (snapshot : List llm.Message)
  | listenStream
deriving DecidableEq, Repr

/-- The messages of `App.Update` that drive a conversation turn. -/
inductive AppMsg where
  | sendPrompt (prompt : String)
  | streamChunk (content : String)
  | streamEnd (fullResponse : String)
  | streamError (err : String)
deriving DecidableEq, Repr

/-- The `ui.SendPromptMsg`, `llm.StreamChunkMsg`, `llm.StreamEndMsg` and
`llm.StreamErrorMsg` cases of `App.Update`, translated from the source.
`uR` / `aR` abstract the chat's style renderers. -/
def App.Update (uR aR : String → String) (a : App) :
    AppMsg → App × List AppCmd
  | .sendPrompt prompt =>
    -- prevent multiple concurrent streams
    if a.streamChanActive then
      (a, [])
    else
      let chat1 := a.chat.SetSending aR true
      let hist1 := a.conversationHistory ++ [⟨"user", prompt⟩]
      -- historyCopy := make(...); copy(historyCopy, a.conversationHistory):
      -- a value copy of the history as of this moment
      let historyCopy := hist1
      ({ a with
          chat := chat1
          conversationHistory := hist1
          streamChanActive := true },
       [.startStream a.selectedModel historyCopy, .listenStream])
  | .streamChunk content =>
    let a1 :=
      if a.activeView = .chatView then
        { a with chat := (a.chat.Update uR aR (.streamChunk content)).1 }
      else a
    let cmds := if a1.streamChanActive then [AppCmd.listenStream] else []
    (a1, cmds)
  | .streamEnd fullResponse =>
    let hist1 := a.conversationHistory ++ [⟨"assistant", fullResponse⟩]
    let chat1 :=
      if a.activeView = .chatView then
        ((a.chat.Update uR aR (.streamEnd fullResponse)).1).SetSending aR false
      else a.chat
    ({ a with
        conversationHistory := hist1
        chat := chat1
        streamChanActive := false }, [])
  | .streamError err =>
    let errMsg := "assistant stream error: " ++ err
    let chat1 :=
      if a.activeView = .chatView then
        ((a.chat.Update uR aR (.streamError errMsg)).1).SetSending aR false
      else a.chat
    ({ a with
        lastError := some err
        chat := chat1
        streamChanActive := false }, [])

/-- Fold `App.Update` over a message sequence, discarding commands. -/
def runMsgs (uR aR : String → String) (a : App) : List AppMsg → App
  | [] => a
  | m :: rest => runMsgs uR aR (a.Update uR aR m).1 rest

/-- The state after handling `SendPromptMsg prompt`. -/
def sendStep (uR aR : String → String) (a : App) (prompt : String) : App :=
  (a.Update uR aR (.sendPrompt prompt)).1

/-- The state after handling a list of `StreamChunkMsg`s. -/
def chunkSteps (uR aR : String → String) (a : App) (cs : List String) : App :=
  runMsgs uR aR a (cs.map .streamChunk)

end app

namespace llm

/-- Concatenation, in emission order, of the `Content` of every
`StreamChunkMsg` in an event list. -/
def chunkConcat : List TeaMsg → String
  | [] => ""
  | .streamChunk c :: rest => c ++ chunkConcat rest
  | _ :: rest => chunkConcat rest

/-- A scanner line that takes the decode-failure branch of the loop: it
carries the `data: ` marker, its payload is not `[DONE]`, and the payload
fails JSON decoding. -/
def malformedLine (decode : String → Option OpenRouterStreamChunk)
    (line : String) : Bool :=
  Str.hasPfx line CHUNK_PREFIX
    && !(Str.trimPfx line CHUNK_PREFIX = "[DONE]")
    && (decode (Str.trimPfx line CHUNK_PREFIX)).isNone

/-- Number of malformed `data: ` lines in a body. -/
def countMalformed (decode : String → Option OpenRouterStreamChunk)
    (lines : List String) : Nat :=
  lines.countP (malformedLine decode)

/-- JSON decoding of the concrete SSE payloads used in the examples
(the behaviour of `json.Unmarshal` into `OpenRouterStreamChunk` on these
exact strings); every other string is treated as failing to decode. -/
def exampleDecode : String → Option OpenRouterStreamChunk
  | "\x7b\"choices\":[\x7b\"delta\":\x7b\"content\":\"Hel\"\x7d\x7d]\x7d" =>
    some ⟨[⟨⟨"Hel"⟩, none⟩], none⟩
  | "\x7b\"choices\":[\x7b\"delta\":\x7b\"content\":\"lo\"\x7d\x7d]\x7d" =>
    some ⟨[⟨⟨"lo"⟩, none⟩], none⟩
  | "\x7b\"choices\":[\x7b\"delta\":\x7b\"content\":\"ab\"\x7d\x7d]\x7d" =>
    some ⟨[⟨⟨"ab"⟩, none⟩], none⟩
  | "\x7b\"error\":\x7b\"message\":\"rate limited\"\x7d\x7d" =>
    some ⟨[], some "rate limited"⟩
  | _ => none

/-- The SSE data line carrying the embedded-API-error example payload. -/
def apiErrLine : String :=
  "data: \x7b\"error\":\x7b\"message\":\"rate limited\"\x7d\x7d"

/-- The response body of the spec's happy-path example, split into scanner
lines. -/
def happyBody : List String :=
  ["data: \x7b\"choices\":[\x7b\"delta\":\x7b\"content\":\"Hel\"\x7d\x7d]\x7d", "",
   "data: \x7b\"choices\":[\x7b\"delta\":\x7b\"content\":\"lo\"\x7d\x7d]\x7d", "",
   "data: [DONE]", ""]

/-- The response body used by the chunk-integrity witness. -/
def abBody : List String :=
  ["data: \x7b\"choices\":[\x7b\"delta\":\x7b\"content\":\"ab\"\x7d\x7d]\x7d",
   "data: [DONE]"]

end llm

/-- A chat fixture: idle, empty rendered history, some typed input. -/
def chatEx : ui.Chat :=
  { historyBuf := ""
    assistantResponse := ""
    sending := false
    inputValue := "hello"
    placeholder := "Write a message…" }

/-- A chat fixture whose textarea holds only whitespace. -/
def chatWs : ui.Chat := { chatEx with inputValue := "   " }

/-- An idle application fixture (no live stream). -/
def appEx : app.App :=
  { selectedModel := "model-a"
    conversationHistory := []
    streamChanActive := false
    chat := chatEx
    lastError := none
    activeView := .chatView }

/-- An application fixture with a turn in flight. -/
def appBusy : app.App := { appEx with streamChanActive := true }

namespace llm

theorem chunkConcat_append (xs ys : List TeaMsg) :
    chunkConcat (xs ++ ys) = chunkConcat xs ++ chunkConcat ys := by
  induction xs with
  | nil => simp [chunkConcat]
  | cons x rest ih =>
    cases x <;> simp [chunkConcat, ih, String.append_assoc]

theorem chunkConcat_noChunk (xs : List TeaMsg) (h : ∀ e ∈ xs, e.isChunk = false) :
    chunkConcat xs = "" := by
  induction xs with
  | nil => rfl
  | cons x rest ih =>
    cases x with
    | streamChunk c =>
      exact absurd (h _ (List.mem_cons_self _ _)) (by simp [TeaMsg.isChunk])
    | streamEnd f => exact ih (fun e he => h e (List.mem_cons_of_mem _ he))
    | streamError er => exact ih (fun e he => h e (List.mem_cons_of_mem _ he))

/-- Loop invariant: the accumulator leaving the scan loop is the entry
accumulator followed by the concatenated text of the emitted chunks. -/
theorem processLines_acc (d : String → Option OpenRouterStreamChunk) :
    ∀ lines acc seen, (processLines d lines acc seen).2.1
      = acc ++ chunkConcat (processLines d lines acc seen).1 := by
  intro lines
  induction lines with
  | nil => intro acc seen; simp [processLines, chunkConcat]
  | cons line rest ih =>
    intro acc seen
    simp only [processLines]
    split
    · exact ih acc seen
    · split
      · split
        · simp [chunkConcat]
        · split
          · split
            · simp [chunkConcat]
            · exact ih acc true
          · split
            · simp [chunkConcat]
            · split
              · exact ih acc seen
              · split
                · exact ih acc seen
                · simp only [chunkConcat]
                  rw [ih (acc ++ _) seen, String.append_assoc]
      · exact ih acc seen

/-- The scan loop never sends a `StreamEndMsg`; the `End` event is built
after the loop, from the accumulator. -/
theorem processLines_noEnd (d : String → Option OpenRouterStreamChunk) :
    ∀ lines acc seen, ∀ e ∈ (processLines d lines acc seen).1, e.isEnd = false := by
  intro lines
  induction lines with
  | nil => intro acc seen; simp [processLines]
  | cons line rest ih =>
    intro acc seen
    simp only [processLines]
    split
    · exact ih acc seen
    · split
      · split
        · simp
        · split
          · split
            · simp [TeaMsg.isEnd]
            · exact ih acc true
          · split
            · simp [TeaMsg.isEnd]
            · split
              · exact ih acc seen
              · split
                · exact ih acc seen
                · intro e he
                  simp only [List.mem_cons] at he
                  rcases he with h | h
                  · subst h; rfl
                  · exact ih _ seen e h
      · exact ih acc seen

/-- A line carrying the `data: ` marker is neither blank nor a `:` comment. -/
theorem hasPfx_data {line : String} (h : Str.hasPfx line CHUNK_PREFIX = true) :
    ¬(line = "" ∨ Str.hasPfx line ":" = true) := by
  simp only [Str.hasPfx, CHUNK_PREFIX, List.isPrefixOf_iff_prefix] at h
  obtain ⟨t, ht⟩ := h
  intro hc
  rcases hc with hc | hc
  · subst hc
    simp at ht
  · simp only [Str.hasPfx, List.isPrefixOf_iff_prefix] at hc
    obtain ⟨u, hu⟩ := hc
    rw [← ht] at hu
    simp at hu

/-- With no earlier decode failure, a malformed `data: ` line is skipped:
no event, reading continues with the tolerance flag set. -/
theorem malformed_skip (d : String → Option OpenRouterStreamChunk)
    (line : String) (rest : List String) (acc : String)
    (hm : malformedLine d line = true) :
    processLines d (line :: rest) acc false = processLines d rest acc true := by
  simp only [malformedLine, Bool.and_eq_true, decide_eq_true_eq, Option.isNone_iff_eq_none,
    Bool.not_eq_true'] at hm
  obtain ⟨⟨h1, h2⟩, h3⟩ := hm
  have hnb := hasPfx_data h1
  have hDone : ¬(Str.trimPfx line CHUNK_PREFIX = "[DONE]") := of_decide_eq_false h2
  have hnc : ¬((line = "" || Str.hasPfx line ":") = true) := by
    simp only [Bool.or_eq_true, decide_eq_true_eq]
    intro hc
    exact hnb hc
  simp only [processLines]
  rw [if_neg hnc, if_pos h1, if_neg hDone, h3]
  simp

/-- With the tolerance flag already set, a malformed `data: ` line sends
one decode `StreamErrorMsg` and returns; the rest of the body is unread. -/
theorem malformed_fatal (d : String → Option OpenRouterStreamChunk)
    (line : String) (rest : List String) (acc : String)
    (hm : malformedLine d line = true) :
    processLines d (line :: rest) acc true
      = ([.streamError (.decode (Str.trimPfx line CHUNK_PREFIX))], acc, .returned) := by
  simp only [malformedLine, Bool.and_eq_true, decide_eq_true_eq, Option.isNone_iff_eq_none,
    Bool.not_eq_true'] at hm
  obtain ⟨⟨h1, h2⟩, h3⟩ := hm
  have hnb := hasPfx_data h1
  have hDone : ¬(Str.trimPfx line CHUNK_PREFIX = "[DONE]") := of_decide_eq_false h2
  have hnc : ¬((line = "" || Str.hasPfx line ":") = true) := by
    simp only [Bool.or_eq_true, decide_eq_true_eq]
    intro hc
    exact hnb hc
  simp only [processLines]
  rw [if_neg hnc, if_pos h1, if_neg hDone, h3]
  simp

/-- If the body holds at most one malformed `data: ` line (one more than
the tolerance flag already records), the loop never sends a decode error. -/
theorem processLines_noDecodeErr (d : String → Option OpenRouterStreamChunk) :
    ∀ lines acc seen,
      countMalformed d lines + (if seen then 1 else 0) ≤ 1 →
      ∀ e ∈ (processLines d lines acc seen).1, e.isDecodeErr = false := by
  intro lines
  induction lines with
  | nil => intro acc seen _; simp [processLines]
  | cons line rest ih =>
    intro acc seen h
    have hcount : countMalformed d (line :: rest)
        = countMalformed d rest + (if malformedLine d line then 1 else 0) := by
      simp [countMalformed, List.countP_cons]
    simp only [processLines]
    split
    · exact ih acc seen (by rw [hcount] at h; split at h <;> omega)
    · rename_i hnc
      split
      · rename_i hpfx
        split
        · simp
        · rename_i hdone
          split
          · rename_i heqnone
            have hmal : malformedLine d line = true := by
              simp [malformedLine, hpfx, hdone, heqnone]
            rw [hcount, hmal] at h
            split
            · rename_i hseen
              subst hseen
              simp at h
            · rename_i hseen
              simp only [Bool.not_eq_true] at hseen
              subst hseen
              simp at h
              exact ih acc true (by simp [h])
          · rename_i chunk heqsome
            split
            · simp [TeaMsg.isDecodeErr]
            · split
              · exact ih acc seen (by rw [hcount] at h; split at h <;> omega)
              · split
                · exact ih acc seen (by rw [hcount] at h; split at h <;> omega)
                · intro e he
                  simp only [List.mem_cons] at he
                  rcases he with h' | h'
                  · subst h'; rfl
                  · exact ih _ seen (by rw [hcount] at h; split at h <;> omega) e h'
      · exact ih acc seen (by rw [hcount] at h; split at h <;> omega)

end llm

namespace llm

/-- If a `StreamEndMsg` occurs in the events of the scan-loop phase, its
payload is the concatenation of the chunk events around it. -/
theorem scanBody_end (d : String → Option OpenRouterStreamChunk) (r : HttpResp)
    (full : String) (h : TeaMsg.streamEnd full ∈ scanBody d r) :
    full = chunkConcat (scanBody d r) := by
  have hnoEnd := processLines_noEnd d r.bodyLines "" false
  have hacc := processLines_acc d r.bodyLines "" false
  unfold scanBody at h ⊢
  cases hexit : (processLines d r.bodyLines "" false).2.2 <;>
    simp only [hexit] at h ⊢
  case returned =>
    exact absurd (hnoEnd _ h) (by simp [TeaMsg.isEnd])
  case broke =>
    rw [chunkConcat_append]
    simp only [chunkConcat]
    rw [List.mem_append] at h
    rcases h with h | h
    · exact absurd (hnoEnd _ h) (by simp [TeaMsg.isEnd])
    · simp only [List.mem_singleton, TeaMsg.streamEnd.injEq] at h
      subst h
      simpa using hacc
  case ranOut =>
    split at h
    · rw [List.mem_append] at h
      rcases h with h | h
      · exact absurd (hnoEnd _ h) (by simp [TeaMsg.isEnd])
      · simp at h
    · rename_i hscan
      rw [if_neg hscan, chunkConcat_append]
      simp only [chunkConcat]
      rw [List.mem_append] at h
      rcases h with h | h
      · exact absurd (hnoEnd _ h) (by simp [TeaMsg.isEnd])
      · simp only [List.mem_singleton, TeaMsg.streamEnd.injEq] at h
        subst h
        simpa using hacc

/-- C2: for every stream terminated by a `StreamEndMsg`, the
`FullResponse` it carries equals, byte for byte, the concatenation in
emission order of the `Content` of every `StreamChunkMsg` of that stream
(the empty string when no chunk was emitted). -/
theorem chunk_integrity (d : String → Option OpenRouterStreamChunk)
    (inp : StreamInput) (full : String)
    (h : TeaMsg.streamEnd full ∈ (streamGenerate d inp).events) :
    full = chunkConcat (streamGenerate d inp).events := by
  cases hm : inp.marshalOk <;> cases hreq : inp.reqOk <;>
      simp only [streamGenerate, hm, hreq, Bool.false_eq_true, Bool.true_eq_false,
        reduceIte, List.nil_append] at h ⊢
  case false.false => simp at h
  case true.false => simp at h
  all_goals
    cases hresp : inp.httpResp with
    | none => rw [hresp] at h; simp at h
    | some r =>
      rw [hresp] at h
      by_cases hst : r.status = 200
      case neg => simp [hst] at h
      case pos =>
        simp only [hst, ne_eq, not_true_eq_false, reduceIte, List.nil_append,
          List.singleton_append, List.mem_cons] at h ⊢
        first
        | exact scanBody_end d r full h
        | (rcases h with h | h
           · exact absurd h (by simp)
           · simp only [chunkConcat]
             exact scanBody_end d r full h)

theorem chunk_integrity_witness :
    "ab" = chunkConcat (streamGenerate exampleDecode
      ⟨true, true, some ⟨200, abBody, false, ""⟩⟩).events :=
  chunk_integrity exampleDecode ⟨true, true, some ⟨200, abBody, false, ""⟩⟩ "ab"
    (by decide)

theorem scanBody_noDecodeErr (d : String → Option OpenRouterStreamChunk)
    (r : HttpResp) (hcnt : countMalformed d r.bodyLines ≤ 1) :
    ∀ e ∈ scanBody d r, e.isDecodeErr = false := by
  have hl := processLines_noDecodeErr d r.bodyLines "" false (by simpa using hcnt)
  unfold scanBody
  cases hexit : (processLines d r.bodyLines "" false).2.2 <;> simp only [hexit]
  case returned => exact hl
  case broke =>
    intro e he
    rw [List.mem_append] at he
    rcases he with he | he
    · exact hl _ he
    · simp at he
      subst he
      rfl
  case ranOut =>
    intro e he
    split at he <;> rw [List.mem_append] at he <;>
      rcases he with he | he <;> first
        | exact hl _ he
        | (simp at he; subst he; rfl)

theorem streamGenerate_noDecodeErr (d : String → Option OpenRouterStreamChunk)
    (inp : StreamInput) (r : HttpResp) (hresp : inp.httpResp = some r)
    (hcnt : countMalformed d r.bodyLines ≤ 1) :
    ∀ e ∈ (streamGenerate d inp).events, e.isDecodeErr = false := by
  cases hm : inp.marshalOk <;> cases hreq : inp.reqOk <;>
      simp only [streamGenerate, hm, hreq, Bool.false_eq_true, Bool.true_eq_false,
        reduceIte, List.nil_append]
  case false.false => simp [TeaMsg.isDecodeErr]
  case true.false => simp [TeaMsg.isDecodeErr]
  all_goals
    rw [hresp]
    by_cases hst : r.status = 200
    case neg => simp [hst, TeaMsg.isDecodeErr]
    case pos =>
      simp only [hst, ne_eq, not_true_eq_false, reduceIte, List.nil_append,
        List.singleton_append]
      first
      | exact scanBody_noDecodeErr d r hcnt
      | (intro e he
         rw [List.mem_cons] at he
         rcases he with he | he
         · subst he; rfl
         · exact scanBody_noDecodeErr d r hcnt e he)

/-- C6: within one stream, the first malformed `data: ` payload produces
no event and reading continues (the tolerance flag is set); with the flag
set, a later malformed payload sends exactly one decode `StreamErrorMsg`
and returns at once, the rest of the body unread; and a body holding at
most one malformed `data: ` line never produces a decode error. -/
theorem decode_tolerance (d : String → Option OpenRouterStreamChunk) :
    (∀ line rest acc, malformedLine d line = true →
        processLines d (line :: rest) acc false = processLines d rest acc true)
  ∧ (∀ line rest acc, malformedLine d line = true →
        processLines d (line :: rest) acc true
          = ([.streamError (.decode (Str.trimPfx line CHUNK_PREFIX))], acc, .returned))
  ∧ (∀ inp r, inp.httpResp = some r → countMalformed d r.bodyLines ≤ 1 →
        ∀ e ∈ (streamGenerate d inp).events, e.isDecodeErr = false) :=
  ⟨fun line rest acc hm => malformed_skip d line rest acc hm,
   fun line rest acc hm => malformed_fatal d line rest acc hm,
   fun inp r hresp hcnt => streamGenerate_noDecodeErr d inp r hresp hcnt⟩

theorem decode_tolerance_witness :
    processLines exampleDecode ["data: junk1", "data: junk2"] "" false
      = ([.streamError (.decode "junk2")], "", .returned) := by
  have h1 := (decode_tolerance exampleDecode).1 "data: junk1" ["data: junk2"] ""
    (by decide)
  have h2 := (decode_tolerance exampleDecode).2.1 "data: junk2" [] "" (by decide)
  rw [h1, h2]
  decide

theorem api_line_eq (d : String → Option OpenRouterStreamChunk)
    (line : String) (rest : List String) (acc : String) (seen : Bool)
    (c : OpenRouterStreamChunk) (m : String)
    (h1 : Str.hasPfx line CHUNK_PREFIX = true)
    (h2 : Str.trimPfx line CHUNK_PREFIX ≠ "[DONE]")
    (h3 : d (Str.trimPfx line CHUNK_PREFIX) = some c)
    (h4 : c.error = some m) :
    processLines d (line :: rest) acc seen
      = ([.streamError (.api m)], acc, .returned) := by
  have hnb := hasPfx_data h1
  have hnc : ¬((line = "" || Str.hasPfx line ":") = true) := by
    simp only [Bool.or_eq_true, decide_eq_true_eq]
    intro hc
    exact hnb hc
  simp only [processLines]
  rw [if_neg hnc, if_pos h1, if_neg h2, h3]
  simp [h4]

theorem api_sg_eq (d : String → Option OpenRouterStreamChunk)
    (line : String) (rest : List String) (scanErr : Bool) (raw : String)
    (c : OpenRouterStreamChunk) (m : String)
    (h1 : Str.hasPfx line CHUNK_PREFIX = true)
    (h2 : Str.trimPfx line CHUNK_PREFIX ≠ "[DONE]")
    (h3 : d (Str.trimPfx line CHUNK_PREFIX) = some c)
    (h4 : c.error = some m) :
    (streamGenerate d ⟨true, true, some ⟨200, line :: rest, scanErr, raw⟩⟩).events
      = [.streamError (.api m)] := by
  have hp := api_line_eq d line rest "" false c m h1 h2 h3 h4
  simp only [streamGenerate, scanBody, reduceIte, List.nil_append]
  rw [hp]
  simp

/-- C7: a successfully decoded `data: ` payload with a non-null error
field makes the transport send exactly one `StreamErrorMsg` carrying that
error message and return immediately: the remaining body lines are never
read (the result does not depend on them) and no later `Chunk` or `End`
event is emitted, whatever text the accumulator already holds. -/
theorem api_error_terminates (d : String → Option OpenRouterStreamChunk)
    (line : String) (rest : List String) (acc : String) (seen scanErr : Bool)
    (raw : String) (c : OpenRouterStreamChunk) (m : String)
    (h1 : Str.hasPfx line CHUNK_PREFIX = true)
    (h2 : Str.trimPfx line CHUNK_PREFIX ≠ "[DONE]")
    (h3 : d (Str.trimPfx line CHUNK_PREFIX) = some c)
    (h4 : c.error = some m) :
    processLines d (line :: rest) acc seen
      = ([.streamError (.api m)], acc, .returned)
    ∧ (streamGenerate d ⟨true, true, some ⟨200, line :: rest, scanErr, raw⟩⟩).events
      = [.streamError (.api m)] :=
  ⟨api_line_eq d line rest acc seen c m h1 h2 h3 h4,
   api_sg_eq d line rest scanErr raw c m h1 h2 h3 h4⟩

theorem api_error_terminates_witness :
    processLines exampleDecode [apiErrLine] "" false
      = ([.streamError (.api "rate limited")], "", .returned)
    ∧ (streamGenerate exampleDecode
        ⟨true, true, some ⟨200, [apiErrLine], false, ""⟩⟩).events
      = [.streamError (.api "rate limited")] :=
  api_error_terminates exampleDecode apiErrLine [] "" false false ""
    ⟨[], some "rate limited"⟩ "rate limited" (by decide) (by decide) (by decide) rfl

/-- C9: on a 200 response whose body is the three frames
`data: <Hel-delta>`, `data: <lo-delta>`, `data: [DONE]` separated by blank
lines, the transport emits exactly `Chunk("Hel")`, `Chunk("lo")`,
`End("Hello")` in that order, then closes the channel, and emits no
`Error`. -/
theorem happy_path_example :
    (streamGenerate exampleDecode ⟨true, true, some ⟨200, happyBody, false, ""⟩⟩).events
      = [.streamChunk "Hel", .streamChunk "lo", .streamEnd "Hello"] := by decide

/-- C1 (code bug): at an input where `json.Marshal` fails but the HTTP
exchange then succeeds, `StreamGenerate` sends a `StreamErrorMsg` and —
for lack of a `return` in that branch — keeps going and sends a
`StreamEndMsg` too: the event sequence holds two terminal events, and the
`StreamErrorMsg` is not the last event before the channel closes, contrary
to the claim. -/
theorem marshal_error_event_not_last :
    (streamGenerate exampleDecode
        ⟨false, true, some ⟨200, ["data: [DONE]"], false, ""⟩⟩).events
      = [.streamError .marshal, .streamEnd ""]
    ∧ ((streamGenerate exampleDecode
        ⟨false, true, some ⟨200, ["data: [DONE]"], false, ""⟩⟩).events.countP
          (·.isTerminal)) = 2 := by decide

end llm

/-- A buffer ending in two newlines never ends with a style label ending
in `": "`. -/
theorem hasSfx_nl_label (b w : String) :
    Str.hasSfx (b ++ "\n\n") (w ++ ": ") = false := by
  have h1 : (w ++ ": ").data = (w.data ++ [':']) ++ [' '] := by
    simp [String.data_append]
  have h2 : (b ++ "\n\n").data = (b.data ++ ['\n']) ++ ['\n'] := by
    simp [String.data_append]
  simp only [Str.hasSfx, h1, h2]
  simp [List.isSuffixOf, List.isPrefixOf]

namespace app

/-- Handling a `StreamChunkMsg` never touches the conversation history,
the stream-channel guard or the active view. -/
theorem chunk_preserves (uR aR : String → String) (a : App) (c : String) :
    (a.Update uR aR (.streamChunk c)).1.conversationHistory = a.conversationHistory
  ∧ (a.Update uR aR (.streamChunk c)).1.streamChanActive = a.streamChanActive
  ∧ (a.Update uR aR (.streamChunk c)).1.activeView = a.activeView := by
  simp only [App.Update]
  split <;> simp

/-- Iterated chunk handling preserves history, guard and view. -/
theorem chunkSteps_preserves (uR aR : String → String) (cs : List String) :
    ∀ a : App,
      (chunkSteps uR aR a cs).conversationHistory = a.conversationHistory
    ∧ (chunkSteps uR aR a cs).streamChanActive = a.streamChanActive
    ∧ (chunkSteps uR aR a cs).activeView = a.activeView := by
  induction cs with
  | nil => intro a; simp [chunkSteps, runMsgs]
  | cons c rest ih =>
    intro a
    have hstep := chunk_preserves uR aR a c
    have hrest := ih (a.Update uR aR (.streamChunk c)).1
    simp only [chunkSteps, List.map_cons, runMsgs] at *
    exact ⟨hrest.1.trans hstep.1, hrest.2.1.trans hstep.2.1, hrest.2.2.trans hstep.2.2⟩

/-- Handling `SendPromptMsg` with no active stream appends exactly the
user message, keeps the view, and marks the stream channel live. -/
theorem sendStep_facts (uR aR : String → String) (a : App) (p : String)
    (h : a.streamChanActive = false) :
    (sendStep uR aR a p).conversationHistory = a.conversationHistory ++ [⟨"user", p⟩]
  ∧ (sendStep uR aR a p).activeView = a.activeView
  ∧ (sendStep uR aR a p).streamChanActive = true := by
  simp [sendStep, App.Update, h]

/-- C3: while a turn is in flight (the stream channel is non-nil),
handling `SendPromptMsg` is a no-op: the returned state is the input state
unchanged — same conversation history, no user message appended, sending
indicator untouched — and no command is issued, so no second
`StreamGenerate` invocation or stream channel is created. -/
theorem single_flight (uR aR : String → String) (a : App) (p : String)
    (h : a.streamChanActive = true) :
    a.Update uR aR (.sendPrompt p) = (a, []) := by
  simp [App.Update, h]

theorem single_flight_witness :
    appBusy.Update id id (.sendPrompt "hi") = (appBusy, []) :=
  single_flight id id appBusy "hi" rfl

/-- C4: a successful turn grows the conversation history by exactly two
messages: the user message, appended synchronously when the Send is
handled, then the assistant message carrying `FullResponse`, appended when
the `StreamEndMsg` is handled; handling the chunk events in between
appends nothing. -/
theorem success_commit_shape (uR aR : String → String) (a : App)
    (p full : String) (chunks : List String) (h : a.streamChanActive = false) :
    (sendStep uR aR a p).conversationHistory
      = a.conversationHistory ++ [⟨"user", p⟩]
  ∧ (chunkSteps uR aR (sendStep uR aR a p) chunks).conversationHistory
      = (sendStep uR aR a p).conversationHistory
  ∧ ((chunkSteps uR aR (sendStep uR aR a p) chunks).Update uR aR
        (.streamEnd full)).1.conversationHistory
      = a.conversationHistory ++ [⟨"user", p⟩, ⟨"assistant", full⟩] := by
  have hsend := sendStep_facts uR aR a p h
  have hch := chunkSteps_preserves uR aR chunks (sendStep uR aR a p)
  refine ⟨hsend.1, hch.1, ?_⟩
  simp only [App.Update]
  rw [hch.1, hsend.1]
  simp [List.append_assoc]

theorem success_commit_shape_witness :
    appEx.streamChanActive = false
    ∧ ((sendStep id id appEx "hi").conversationHistory
          = appEx.conversationHistory ++ [⟨"user", "hi"⟩]
      ∧ (chunkSteps id id (sendStep id id appEx "hi") ["a", "b"]).conversationHistory
          = (sendStep id id appEx "hi").conversationHistory
      ∧ ((chunkSteps id id (sendStep id id appEx "hi") ["a", "b"]).Update id id
            (.streamEnd "ab")).1.conversationHistory
          = appEx.conversationHistory ++ [⟨"user", "hi"⟩, ⟨"assistant", "ab"⟩]) :=
  ⟨rfl, success_commit_shape id id appEx "hi" "ab" ["a", "b"] rfl⟩

/-- C5: a turn terminated by `StreamErrorMsg` grows the conversation
history by exactly the user message appended at Send time — no assistant
message is ever appended — while the error handler appends the error text
to the rendered history and clears the sending indicator. -/
theorem failure_commit_shape (uR aR : String → String) (a : App)
    (p e : String) (chunks : List String) (h : a.streamChanActive = false)
    (hv : a.activeView = .chatView) :
    ((chunkSteps uR aR (sendStep uR aR a p) chunks).Update uR aR
        (.streamError e)).1.conversationHistory
      = a.conversationHistory ++ [⟨"user", p⟩]
  ∧ ((chunkSteps uR aR (sendStep uR aR a p) chunks).Update uR aR
        (.streamError e)).1.chat.sending = false
  ∧ ((chunkSteps uR aR (sendStep uR aR a p) chunks).Update uR aR
        (.streamError e)).1.chat.historyBuf
      = (chunkSteps uR aR (sendStep uR aR a p) chunks).chat.historyBuf
          ++ ("assistant stream error: " ++ e) ++ "\n\n" := by
  have hsend := sendStep_facts uR aR a p h
  have hch := chunkSteps_preserves uR aR chunks (sendStep uR aR a p)
  have hview : (chunkSteps uR aR (sendStep uR aR a p) chunks).activeView
      = .chatView := by
    rw [hch.2.2, hsend.2.1, hv]
  simp only [App.Update, hview, reduceIte, ui.Chat.Update, ui.Chat.SetSending,
    hasSfx_nl_label, Bool.false_and, Bool.false_eq_true]
  refine ⟨?_, by simp, by simp⟩
  rw [hch.1, hsend.1]

theorem failure_commit_shape_witness :
    (appEx.streamChanActive = false ∧ appEx.activeView = .chatView)
    ∧ (((chunkSteps id id (sendStep id id appEx "hi") ["x"]).Update id id
          (.streamError "boom")).1.conversationHistory
        = appEx.conversationHistory ++ [⟨"user", "hi"⟩]
      ∧ ((chunkSteps id id (sendStep id id appEx "hi") ["x"]).Update id id
          (.streamError "boom")).1.chat.sending = false
      ∧ ((chunkSteps id id (sendStep id id appEx "hi") ["x"]).Update id id
          (.streamError "boom")).1.chat.historyBuf
        = (chunkSteps id id (sendStep id id appEx "hi") ["x"]).chat.historyBuf
            ++ ("assistant stream error: " ++ "boom") ++ "\n\n") :=
  ⟨⟨rfl, rfl⟩, failure_commit_shape id id appEx "hi" "boom" ["x"] rfl rfl⟩

/-- C8: the message list handed to the producer at Send time is the
history copy taken just after the user append (recorded in the
`startStream` command), and the assistant append performed on `End` yields
a strictly longer history: the later append is not visible through the
snapshot value, which still equals the history as of Send time.  The
snapshot may be treated as a value because the source builds it with
`make` + `copy` and every later history mutation rebinds
`a.conversationHistory` via `append` rather than writing into the copied
range. -/
theorem snapshot_isolation (uR aR : String → String) (a : App)
    (p full : String) (h : a.streamChanActive = false) :
    (a.Update uR aR (.sendPrompt p)).2
      = [.startStream a.selectedModel (a.conversationHistory ++ [⟨"user", p⟩]),
         .listenStream]
  ∧ (sendStep uR aR a p).conversationHistory
      = a.conversationHistory ++ [⟨"user", p⟩]
  ∧ ((sendStep uR aR a p).Update uR aR (.streamEnd full)).1.conversationHistory
      = (a.conversationHistory ++ [⟨"user", p⟩]) ++ [⟨"assistant", full⟩]
  ∧ (a.conversationHistory ++ [⟨"user", p⟩])
      ≠ ((sendStep uR aR a p).Update uR aR (.streamEnd full)).1.conversationHistory := by
  have hsend := sendStep_facts uR aR a p h
  refine ⟨by simp [App.Update, h], hsend.1, ?_, ?_⟩
  · simp only [App.Update]
    rw [hsend.1]
  · simp only [App.Update]
    rw [hsend.1]
    intro hc
    have := congrArg List.length hc
    simp at this

theorem snapshot_isolation_witness :
    appEx.streamChanActive = false
    ∧ ((appEx.Update id id (.sendPrompt "q")).2
        = [.startStream appEx.selectedModel
            (appEx.conversationHistory ++ [⟨"user", "q"⟩]), .listenStream]
      ∧ (sendStep id id appEx "q").conversationHistory
        = appEx.conversationHistory ++ [⟨"user", "q"⟩]
      ∧ ((sendStep id id appEx "q").Update id id (.streamEnd "r")).1.conversationHistory
        = (appEx.conversationHistory ++ [⟨"user", "q"⟩]) ++ [⟨"assistant", "r"⟩]
      ∧ (appEx.conversationHistory ++ [⟨"user", "q"⟩])
        ≠ ((sendStep id id appEx "q").Update id id
            (.streamEnd "r")).1.conversationHistory) :=
  ⟨rfl, snapshot_isolation id id appEx "q" "r" rfl⟩

end app

namespace ui

/-- C10: pressing the send key while idle with a textarea value that trims
to the empty string is a no-op: the chat state — rendered history buffer
and textarea value included — is returned unchanged and no command (in
particular no `SendPromptMsg`) is produced. -/
theorem empty_prompt_noop (uR aR : String → String) (c : Chat)
    (edit : String → String) (h1 : c.sending = false)
    (h2 : Str.trimSpace c.inputValue = "") :
    c.Update uR aR (.key true edit) = (c, []) := by
  simp [Chat.Update, h1, h2]

theorem empty_prompt_noop_witness :
    chatWs.sending = false
    ∧ Str.trimSpace chatWs.inputValue = ""
    ∧ chatWs.Update id id (.key true id) = (chatWs, []) :=
  ⟨rfl, by decide, empty_prompt_noop id id chatWs id rfl (by decide)⟩

end ui
